import Mathlib

/-!
Verification development for the enterprise-lgrg social-video backends.

The repository contains several near-duplicate Express servers.  We embed
the route handlers and store operations of each variant as pure Lean
functions over explicit state values:

* namespace Tiktok  — the minimal server (tiktokbackend.js): no sessions,
  no like-witness set.
* namespace FileV   — the file-backed, session-gated servers (part_002 and
  the JSON fallback of part_001): likes are guarded by a likesByUser map.
* namespace DDB     — the managed-table servers (part_000 and the table
  branch of part_001): likes use a conditional update that is rejected
  when the user is already in the likes list.

Machine integers are modelled as Nat, JSON objects as structures, object
key maps as lists of keys, optional attributes as Option, and fallible
store calls as Except.  Timestamps (Date.now, toISOString) and bcrypt
are passed in as parameters.
-/

namespace Spec2Proof

/-- Trim of a string as performed by the servers on comment text: drop
whitespace characters from both ends of the character list. -/
def jsTrim (s : String) : String :=
  ⟨((s.data.dropWhile Char.isWhitespace).reverse.dropWhile Char.isWhitespace).reverse⟩

/-- Update the first element satisfying a predicate, leaving the rest of
the list unchanged.  This models the servers' pattern of mutating, in
place, the object returned by a find over the videos array. -/
def updateFirst (p : α → Bool) (f : α → α) : List α → List α
  | [] => []
  | x :: xs => if p x then f x :: xs else x :: updateFirst p f xs

/-! ## Tiktok: the minimal server (tiktokbackend.js)

This variant has no session middleware and no per-user like state; a
video carries only a likeCount and a comments list, and the comment
objects have no author field. -/

namespace Tiktok

structure Comment where
  id : Nat
  text : String
  at' : String  -- the field is named at in the source; at is reserved in Lean
  deriving DecidableEq

structure Video where
  id : Nat
  src : String
  username : String
  caption : String
  music : String
  likeCount : Nat
  comments : List Comment
  deriving DecidableEq

structure DB where
  videos : List Video
  deriving DecidableEq

/-- Seed written by ensureSeed when the data file is absent. -/
def seedDB : DB :=
  ⟨[{ id := 1,
      src := "https://cdn.coverr.co/videos/coverr-man-walking-on-a-suspension-bridge-6468/1080p.mp4",
      username := "@alpine.explorer",
      caption := "Crossing the old suspension bridge. Would you? #hike #adventure",
      music := "Original Sound — alpine", likeCount := 0, comments := [] },
    { id := 2,
      src := "https://cdn.coverr.co/videos/coverr-city-street-at-night-6923/1080p.mp4",
      username := "@nocturne",
      caption := "Blue hour drives hit different.",
      music := "City Nights — analogtape", likeCount := 0, comments := [] },
    { id := 3,
      src := "https://cdn.coverr.co/videos/coverr-making-pizza-8157/1080p.mp4",
      username := "@chefmode",
      caption := "POV: best pizza of your life 🍕",
      music := "Neapolitan Vibes — cucina", likeCount := 0, comments := [] },
    { id := 4,
      src := "https://cdn.coverr.co/videos/coverr-surfing-on-the-ocean-9720/1080p.mp4",
      username := "@surf.check",
      caption := "Morning glass. Lefts were firing.",
      music := "Sea Breeze — modular", likeCount := 0, comments := [] },
    { id := 5,
      src := "https://cdn.coverr.co/videos/coverr-writing-in-a-notebook-5691/1080p.mp4",
      username := "@studylog",
      caption := "25m deep work, 5m rest. #pomodoro",
      music := "Lo-fi Loop — studycat", likeCount := 0, comments := [] }]⟩

inductive LikeRes where
  | error (status : Nat) (code : String)
  | ok (id : Nat) (likeCount : Nat)
  deriving DecidableEq

/-- Route POST /api/videos/:id/like of tiktokbackend.js.  There is no
auth gate and no witness set: every call on a present video increments
likeCount. -/
def likeHandler (vid : Nat) (db : DB) : LikeRes × DB :=
  match db.videos.find? (fun v => v.id == vid) with
  | none => (.error 404 "not_found", db)
  | some v =>
    let v' : Video := { v with likeCount := v.likeCount + 1 }
    (.ok vid v'.likeCount, ⟨updateFirst (fun w => w.id == vid) (fun _ => v') db.videos⟩)

inductive CommentRes where
  | error (status : Nat) (code : String)
  | created (c : Comment)
  deriving DecidableEq

/-- Route POST /api/videos/:id/comments of tiktokbackend.js.  The handler
trims the body text, rejects an empty or over-long result before touching
the store, and otherwise appends a comment built from the trimmed text;
now and nowISO stand for Date.now() and new Date().toISOString(). -/
def commentHandler (now : Nat) (nowISO : String) (vid : Nat) (raw : String) (db : DB) :
    CommentRes × DB :=
  let text := jsTrim raw
  if text = "" then (.error 400 "empty_comment", db)
  else if text.length > 300 then (.error 400 "too_long", db)
  else
    match db.videos.find? (fun v => v.id == vid) with
    | none => (.error 404 "not_found", db)
    | some v =>
      let c : Comment := { id := now, text := text, at' := nowISO }
      (.created c,
       ⟨updateFirst (fun w => w.id == vid)
          (fun _ => { v with comments := v.comments ++ [c] }) db.videos⟩)

/-- LikeCount of the video with the given id, as read back from the store. -/
def countOf (db : DB) (vid : Nat) : Option Nat :=
  (db.videos.find? (fun v => v.id == vid)).map (fun v => v.likeCount)

end Tiktok

/-! ## FileV: the session-gated file-backed servers

This covers part_002 and the JSON-fallback store of part_001, whose like
and comment logic is identical: each video carries a likesByUser witness
map (modelled as the list of its keys, every key mapping to true) and the
like route inserts the caller's user id and increments likeCount only
when the id is not yet a key. -/

namespace FileV

structure Comment where
  id : Nat
  text : String
  user : String
  at' : String  -- the field is named at in the source; at is reserved in Lean
  deriving DecidableEq

structure Video where
  id : Nat
  src : String
  username : String
  caption : String
  music : String
  likeCount : Nat
  comments : List Comment
  likesByUser : List String
  deriving DecidableEq

structure DB where
  videos : List Video
  deriving DecidableEq

structure User where
  id : Nat
  username : String
  passwordHash : String
  deriving DecidableEq

structure Users where
  users : List User
  deriving DecidableEq

/-- Authenticated identity carried by the signed session cookie. -/
structure Sess where
  id : Nat
  username : String
  deriving DecidableEq

/-- Seed written by ensureSeed when the feed file is absent (the caption
and music strings appear in the source with mojibake bytes, reproduced
here verbatim). -/
def seedDB : DB :=
  ⟨[{ id := 1,
      src := "https://cdn.coverr.co/videos/coverr-man-walking-on-a-suspension-bridge-6468/1080p.mp4",
      username := "@alpine.explorer",
      caption := "Crossing the old suspension bridge. Would you? #hike #adventure",
      music := "Original Sound â€” alpine", likeCount := 0, comments := [], likesByUser := [] },
    { id := 2,
      src := "https://cdn.coverr.co/videos/coverr-city-street-at-night-6923/1080p.mp4",
      username := "@nocturne",
      caption := "Blue hour drives hit different.",
      music := "City Nights â€” analogtape", likeCount := 0, comments := [], likesByUser := [] },
    { id := 3,
      src := "https://cdn.coverr.co/videos/coverr-making-pizza-8157/1080p.mp4",
      username := "@chefmode",
      caption := "POV: best pizza of your life ðŸ•",
      music := "Neapolitan Vibes â€” cucina", likeCount := 0, comments := [], likesByUser := [] }]⟩

inductive LikeRes where
  | error (status : Nat) (code : String)
  | ok (id : Nat) (likeCount : Nat)
  deriving DecidableEq

/-- Route POST /api/videos/:id/like of part_002 (same logic as the
store.likeVideo of the part_001 JSON fallback, behind requireAuth).
The requireAuth middleware answers 401 when the session has no user;
otherwise the handler inserts String(user.id) into likesByUser and bumps
likeCount only when that key is absent, then responds with the current
count. -/
def likeHandler (sess : Option Sess) (vid : Nat) (db : DB) : LikeRes × DB :=
  match sess with
  | none => (.error 401 "unauthorized", db)
  | some u =>
    match db.videos.find? (fun v => v.id == vid) with
    | none => (.error 404 "not_found", db)
    | some v =>
      let uid := toString u.id
      let v' : Video :=
        if v.likesByUser.contains uid then v
        else { v with likesByUser := v.likesByUser ++ [uid], likeCount := v.likeCount + 1 }
      (.ok vid v'.likeCount, ⟨updateFirst (fun w => w.id == vid) (fun _ => v') db.videos⟩)

/-- Store likeVideo of the part_001 JSON fallback, which receives the
user id from the route and throws not_found for an unknown video. -/
def likeVideoStore (db : DB) (vid : Nat) (userId : String) : Except String (Nat × DB) :=
  match db.videos.find? (fun v => v.id == vid) with
  | none => .error "not_found"
  | some v =>
    let v' : Video :=
      if v.likesByUser.contains userId then v
      else { v with likesByUser := v.likesByUser ++ [userId], likeCount := v.likeCount + 1 }
    .ok (v'.likeCount, ⟨updateFirst (fun w => w.id == vid) (fun _ => v') db.videos⟩)

inductive CommentRes where
  | error (status : Nat) (code : String)
  | created (c : Comment)
  deriving DecidableEq

/-- Route POST /api/videos/:id/comments of part_002: requireAuth, then
trim the body text and reject an empty or over-long result before the
store is read, then append a comment built from the trimmed text and the
session username. -/
def commentHandler (now : Nat) (nowISO : String) (sess : Option Sess) (vid : Nat)
    (raw : String) (db : DB) : CommentRes × DB :=
  match sess with
  | none => (.error 401 "unauthorized", db)
  | some u =>
    let text := jsTrim raw
    if text = "" then (.error 400 "empty_comment", db)
    else if text.length > 300 then (.error 400 "too_long", db)
    else
      match db.videos.find? (fun v => v.id == vid) with
      | none => (.error 404 "not_found", db)
      | some v =>
        let c : Comment := { id := now, text := text, user := u.username, at' := nowISO }
        (.created c,
         ⟨updateFirst (fun w => w.id == vid)
            (fun _ => { v with comments := v.comments ++ [c] }) db.videos⟩)

/-- Public projection produced by GET /api/feed of part_002: the comments
list and the likesByUser witness map are stripped, the remaining fields
are passed through, and a derived commentCount is added. -/
structure Public where
  id : Nat
  src : String
  username : String
  caption : String
  music : String
  likeCount : Nat
  commentCount : Nat
  deriving DecidableEq

/-- Projection of one video to its public form. -/
def publicOf (v : Video) : Public :=
  { id := v.id, src := v.src, username := v.username, caption := v.caption,
    music := v.music, likeCount := v.likeCount, commentCount := v.comments.length }

/-- Route GET /api/feed of part_002 (and store.listVideos of the part_001
JSON fallback, which projects the same fields explicitly). -/
def feed (db : DB) : List Public :=
  db.videos.map (fun v =>
    { id := v.id, src := v.src, username := v.username, caption := v.caption,
      music := v.music, likeCount := v.likeCount, commentCount := v.comments.length })

inductive SignupRes where
  | error (status : Nat) (code : String)
  | created (username : String)
  deriving DecidableEq

/-- Route POST /api/auth/signup of part_002: validate credentials, answer
409 username_taken when a stored user already has the same lowercased
username, otherwise append the new user; hashF stands for bcrypt.hash and
now for Date.now(). -/
def signup (hashF : String → String) (now : Nat) (username password : String)
    (us : Users) : SignupRes × Users :=
  if username = "" ∨ password = "" then (.error 400 "missing_credentials", us)
  else if username.length < 3 then (.error 400 "username_too_short", us)
  else if password.length < 6 then (.error 400 "password_too_short", us)
  else if us.users.any (fun u => u.username.toLower == username.toLower) then
    (.error 409 "username_taken", us)
  else
    let u : User := { id := now, username := username, passwordHash := hashF password }
    (.created username, ⟨us.users ++ [u]⟩)

/-- States of the users file reachable from its empty initial content by
signup requests. -/
inductive UsersReach : Users → Prop where
  | init : UsersReach ⟨[]⟩
  | step (hashF : String → String) (now : Nat) (username password : String) (us : Users) :
      UsersReach us → UsersReach (signup hashF now username password us).2

end FileV

/-! ## DDB: the managed-table servers

This covers part_000 and the table branch of part_001.  Items of the
videos table are modelled with Option for attributes that may be absent
(the seed stores comments and likes but no commentCount; an item created
by an upserting conditional update lacks the descriptive attributes).
The like update carries the condition that the likes list is absent or
does not yet contain the caller; when the condition fails the store call
raises ConditionalCheckFailed, and when the keyed item is absent the
update creates it, as the table service does for an unconditional-on-
missing-item update. -/

namespace DDB

structure User where
  username : String
  passwordHash : String
  id : Nat
  courses : Option (List String)
  deriving DecidableEq

structure Comment where
  id : Nat
  user : String
  text : String
  at' : String  -- the field is named at in the source; at is reserved in Lean
  deriving DecidableEq

structure Video where
  id : Nat
  src : Option String
  username : Option String
  caption : Option String
  music : Option String
  likeCount : Nat
  likes : Option (List String)
  comments : Option (List Comment)
  commentCount : Option Nat
  deriving DecidableEq

structure State where
  videos : List Video
  deriving DecidableEq

structure Sess where
  id : Nat
  username : String
  deriving DecidableEq

/-- Seed written by ensureSeedVideos of part_000 when the table is empty
(the part_001 table branch seeds the same items with mojibake strings). -/
def seedState : State :=
  ⟨[{ id := 1,
      src := some "https://cdn.coverr.co/videos/coverr-man-walking-on-a-suspension-bridge-6468/1080p.mp4",
      username := some "@alpine.explorer",
      caption := some "Crossing the old suspension bridge. Would you? #hike #adventure",
      music := some "Original Sound — alpine",
      likeCount := 0, comments := some [], likes := some [], commentCount := none },
    { id := 2,
      src := some "https://cdn.coverr.co/videos/coverr-city-street-at-night-6923/1080p.mp4",
      username := some "@nocturne",
      caption := some "Blue hour drives hit different.",
      music := some "City Nights — analogtape",
      likeCount := 0, comments := some [], likes := some [], commentCount := none },
    { id := 3,
      src := some "https://cdn.coverr.co/videos/coverr-making-pizza-8157/1080p.mp4",
      username := some "@chefmode",
      caption := some "POV: best pizza of your life 🍕",
      music := some "Neapolitan Vibes — cucina",
      likeCount := 0, comments := some [], likes := some [], commentCount := none }]⟩

/-- Errors raised by the table client: the conditional-update rejection,
and any other storage failure surfaced to the route's catch. -/
inductive Err where
  | conditionalCheckFailed
  | storageFailure
  deriving DecidableEq

/-- Store likeVideo of part_000 and part_001: a single conditional update
(ADD likeCount 1, append the caller to likes) guarded by the condition
that likes is absent or does not contain the caller; it returns the new
likeCount.  A failed condition raises ConditionalCheckFailed; applying
the update to a missing key creates the item with only the written
attributes. -/
def likeVideo (s : State) (vid : Nat) (userId : String) : Except Err (Nat × State) :=
  match s.videos.find? (fun v => v.id == vid) with
  | some v =>
    match v.likes with
    | some ls =>
      if ls.contains userId then .error .conditionalCheckFailed
      else
        let v' : Video := { v with likes := some (ls ++ [userId]), likeCount := v.likeCount + 1 }
        .ok (v'.likeCount, ⟨updateFirst (fun w => w.id == vid) (fun _ => v') s.videos⟩)
    | none =>
      let v' : Video := { v with likes := some [userId], likeCount := v.likeCount + 1 }
      .ok (v'.likeCount, ⟨updateFirst (fun w => w.id == vid) (fun _ => v') s.videos⟩)
  | none =>
    let v' : Video := { id := vid, src := none, username := none, caption := none,
                        music := none, likeCount := 1, likes := some [userId],
                        comments := none, commentCount := none }
    .ok (1, ⟨s.videos ++ [v']⟩)

/-- Store addComment of part_000 and part_001: one update that appends
the comment to comments (created as empty when absent) and sets
commentCount to its previous value (0 when absent) plus 1; it returns the
comment it built from the trimmed text, the session username and the
clock.  Applied to a missing key it creates the item. -/
def addComment (s : State) (vid : Nat) (username text : String) (now : Nat)
    (nowISO : String) : Comment × State :=
  let c : Comment := { id := now, user := username, text := text, at' := nowISO }
  match s.videos.find? (fun v => v.id == vid) with
  | some v =>
    let v' : Video := { v with comments := some (v.comments.getD [] ++ [c]),
                               commentCount := some (v.commentCount.getD 0 + 1) }
    (c, ⟨updateFirst (fun w => w.id == vid) (fun _ => v') s.videos⟩)
  | none =>
    let v' : Video := { id := vid, src := none, username := none, caption := none,
                        music := none, likeCount := 0, likes := none,
                        comments := some [c], commentCount := some 1 }
    (c, ⟨s.videos ++ [v']⟩)

/-- Public projection of a stored video as built by listVideos: the six
public fields plus a commentCount derived from the comments list; the
likes witness list is not among its fields. -/
structure Public where
  id : Nat
  src : Option String
  username : Option String
  caption : Option String
  music : Option String
  likeCount : Nat
  commentCount : Nat
  deriving DecidableEq

/-- Projection of one item to its public form. -/
def publicOf (v : Video) : Public :=
  { id := v.id, src := v.src, username := v.username, caption := v.caption,
    music := v.music, likeCount := v.likeCount,
    commentCount := (v.comments.getD []).length }

/-- Store listVideos of part_001 (and part_000, identical): scan the
table and project each item to its public fields with a derived
commentCount. -/
def listVideos (s : State) : List Public :=
  s.videos.map (fun v =>
    { id := v.id, src := v.src, username := v.username, caption := v.caption,
      music := v.music, likeCount := v.likeCount,
      commentCount := (v.comments.getD []).length })

/-- Store changePassword of part_000: look the user up by key; absent
user or failed verification returns false without writing; otherwise one
update replaces only the passwordHash attribute.  verify stands for
bcrypt.compare and hashF for bcrypt.hash. -/
def changePassword (verify : String → String → Bool) (hashF : String → String)
    (users : List User) (username oldPassword newPassword : String) :
    Bool × List User :=
  match users.find? (fun u => u.username == username) with
  | none => (false, users)
  | some u =>
    if verify oldPassword u.passwordHash then
      (true, updateFirst (fun w => w.username == username)
        (fun w => { w with passwordHash := hashF newPassword }) users)
    else (false, users)

inductive LikeRes where
  | error (status : Nat) (code : String)
  | ok (id : Nat) (likeCount : Nat)
  deriving DecidableEq

/-- Route POST /api/videos/:id/like of part_001: behind requireAuth, call
likeVideo with the session user id; a ConditionalCheckFailed is answered
as already liked, re-reading the current count from listVideos; any other
failure is mapped to 404 not_found. -/
def likeRouteV1 (sess : Option Sess) (vid : Nat) (s : State) : LikeRes × State :=
  match sess with
  | none => (.error 401 "unauthorized", s)
  | some u =>
    match likeVideo s vid (toString u.id) with
    | .ok (c, s') => (.ok vid c, s')
    | .error .conditionalCheckFailed =>
      match (listVideos s).find? (fun v => v.id == vid) with
      | some item => (.ok vid item.likeCount, s)
      | none => (.ok vid 0, s)
    | .error .storageFailure => (.error 404 "not_found", s)

/-- Route POST /api/videos/:id/like of part_000: behind requireAuth, call
likeVideo with the session user id; its catch block maps every failure,
including the ConditionalCheckFailed raised for an already-liked video,
to 404 not_found. -/
def likeRouteV0 (sess : Option Sess) (vid : Nat) (s : State) : LikeRes × State :=
  match sess with
  | none => (.error 401 "unauthorized", s)
  | some u =>
    match likeVideo s vid (toString u.id) with
    | .ok (c, s') => (.ok vid c, s')
    | .error _ => (.error 404 "not_found", s)

inductive CommentRes where
  | error (status : Nat) (code : String)
  | created (c : Comment)
  deriving DecidableEq

/-- Route POST /api/videos/:id/comments of part_000: behind requireAuth,
trim the body text, reject trimmed length under 1 or over 300, then call
addComment with the session username and answer 201 with the comment. -/
def commentRouteV0 (now : Nat) (nowISO : String) (sess : Option Sess) (vid : Nat)
    (raw : String) (s : State) : CommentRes × State :=
  match sess with
  | none => (.error 401 "unauthorized", s)
  | some u =>
    let text := jsTrim raw
    if text.length < 1 then (.error 400 "empty_comment", s)
    else if text.length > 300 then (.error 400 "too_long", s)
    else
      let r := addComment s vid u.username text now nowISO
      (.created r.1, r.2)

/-- Step of the videos table under a like request (a rejected condition
leaves the table unchanged). -/
def likeStep (vid : Nat) (userId : String) (s : State) : State :=
  match likeVideo s vid userId with
  | .ok (_, s') => s'
  | .error _ => s

/-- Step of the videos table under an accepted comment request. -/
def commentStep (vid : Nat) (username text : String) (now : Nat) (nowISO : String)
    (s : State) : State :=
  (addComment s vid username text now nowISO).2

/-- Table states reachable from the seed by like and comment requests. -/
inductive Reach : State → Prop where
  | seed : Reach seedState
  | like (vid : Nat) (userId : String) (s : State) :
      Reach s → Reach (likeStep vid userId s)
  | comment (vid : Nat) (username text : String) (now : Nat) (nowISO : String) (s : State) :
      Reach s → Reach (commentStep vid username text now nowISO s)

end DDB

/-! ## Derived definitions used by the statements -/

namespace FileV

/-- State transformer of one like request through the part_002 route. -/
def likeRouteStep (op : Option Sess × Nat) (db : DB) : DB :=
  (likeHandler op.1 op.2 db).2

/-- State transformer of one store.likeVideo call of the part_001 JSON
fallback (a not_found error leaves the file unchanged). -/
def likeStoreStep (op : String × Nat) (db : DB) : DB :=
  match likeVideoStore db op.2 op.1 with
  | .ok r => r.2
  | .error _ => db

/-- Feed file after a sequence of like requests, starting from the seed. -/
def runLikes (ops : List (Option Sess × Nat)) : DB :=
  ops.foldl (fun d op => likeRouteStep op d) seedDB

/-- Feed file after a sequence of store.likeVideo calls, starting from
the seed. -/
def runStoreLikes (ops : List (String × Nat)) : DB :=
  ops.foldl (fun d op => likeStoreStep op d) seedDB

/-- Invariant of the file store: each video's likeCount equals the number
of keys of its likesByUser witness map, and the keys are distinct. -/
def LikeInv (db : DB) : Prop :=
  ∀ v ∈ db.videos, v.likeCount = v.likesByUser.length ∧ v.likesByUser.Nodup

instance : DecidablePred LikeInv := fun db =>
  inferInstanceAs (Decidable (∀ v ∈ db.videos, _ ∧ _))

end FileV

namespace DDB

/-- Table state in which user id 100 has already liked video 1, produced
by one accepted like request on the seed. -/
def alreadyLikedState : State := likeStep 1 "100" seedState

/-- Invariant of the videos table: each item's stored commentCount
attribute (0 when absent) equals the length of its comments list. -/
def CommentInv (s : State) : Prop :=
  ∀ v ∈ s.videos, v.commentCount.getD 0 = (v.comments.getD []).length

instance : DecidablePred CommentInv := fun s =>
  inferInstanceAs (Decidable (∀ v ∈ s.videos, _ = _))

end DDB

/-! ## General lemmas about the helpers -/

theorem updateFirst_fix {p : α → Bool} {f : α → α} {l : List α} {v : α}
    (h : l.find? p = some v) (hfix : f v = v) : updateFirst p f l = l := by
  induction l with
  | nil => simp at h
  | cons x xs ih =>
    by_cases hx : p x
    · rw [List.find?_cons_of_pos _ hx] at h
      cases h
      simp [updateFirst, hx, hfix]
    · rw [List.find?_cons_of_neg _ hx] at h
      simp [updateFirst, hx, ih h]

theorem find?_updateFirst {p : α → Bool} {f : α → α} {l : List α} {v : α}
    (h : l.find? p = some v) (hp : p (f v) = true) :
    (updateFirst p f l).find? p = some (f v) := by
  induction l with
  | nil => simp at h
  | cons x xs ih =>
    by_cases hx : p x
    · rw [List.find?_cons_of_pos _ hx] at h
      cases h
      simp [updateFirst, hx, List.find?_cons_of_pos _ hp]
    · rw [List.find?_cons_of_neg _ hx] at h
      simp [updateFirst, hx, List.find?_cons_of_neg _ hx, ih h]

theorem mem_updateFirst {p : α → Bool} {f : α → α} {l : List α} {y : α}
    (h : y ∈ updateFirst p f l) : y ∈ l ∨ ∃ x, x ∈ l ∧ p x = true ∧ y = f x := by
  induction l with
  | nil => simp [updateFirst] at h
  | cons x xs ih =>
    by_cases hx : p x
    · simp [updateFirst, hx] at h
      rcases h with h | h
      · exact Or.inr ⟨x, List.mem_cons_self x xs, hx, h⟩
      · exact Or.inl (List.mem_cons_of_mem x h)
    · simp [updateFirst, hx] at h
      rcases h with h | h
      · exact Or.inl (h ▸ List.mem_cons_self x xs)
      · rcases ih h with h' | ⟨z, hz, hpz, hy⟩
        · exact Or.inl (List.mem_cons_of_mem x h')
        · exact Or.inr ⟨z, List.mem_cons_of_mem x hz, hpz, hy⟩

theorem mem_of_ne_updateFirst {p : α → Bool} {f : α → α} {l : List α} {y : α}
    (h : y ∈ l) (hy : p y = false) : y ∈ updateFirst p f l := by
  induction l with
  | nil => simp at h
  | cons x xs ih =>
    by_cases hx : p x
    · simp [updateFirst, hx]
      rcases List.mem_cons.mp h with h' | h'
      · subst h'; rw [hx] at hy; cases hy
      · exact Or.inr h'
    · simp [updateFirst, hx]
      rcases List.mem_cons.mp h with h' | h'
      · exact Or.inl h'
      · exact Or.inr (ih h')

theorem length_updateFirst (p : α → Bool) (f : α → α) (l : List α) :
    (updateFirst p f l).length = l.length := by
  induction l with
  | nil => rfl
  | cons x xs ih =>
    by_cases hx : p x <;> simp [updateFirst, hx, ih]

theorem contains_append_self (l : List String) (a : String) :
    (l ++ [a]).contains a = true := by
  simp [List.contains, List.elem_iff]

theorem not_mem_of_contains_false {l : List String} {a : String}
    (h : l.contains a = false) : a ∉ l := by
  simp [List.contains, List.elem_eq_mem] at h
  exact h

theorem eq_empty_of_length_zero {s : String} (h : s.length = 0) : s = "" := by
  cases s with
  | mk data =>
    simp [String.length] at h
    subst h
    decide

theorem nodup_append_single {l : List String} {a : String}
    (h : a ∉ l) (hn : l.Nodup) : (l ++ [a]).Nodup := by
  simp [List.nodup_append]
  exact ⟨hn, by simpa using h⟩

theorem foldl_inv {P : β → Prop} {f : β → α → β}
    (hstep : ∀ b a, P b → P (f b a)) :
    ∀ (l : List α) (b : β), P b → P (l.foldl f b) := by
  intro l
  induction l with
  | nil => intro b h; exact h
  | cons x xs ih => intro b h; exact ih (f b x) (hstep b x h)

/-! ## C1: per-user idempotence of the like operation -/

theorem mem_of_contains_true {l : List String} {a : String}
    (h : l.contains a = true) : a ∈ l := by
  simp [List.contains, List.elem_iff] at h
  exact h

theorem iterate_fix {β : Type _} {f : β → β} {b : β} (h : f (f b) = f b) :
    ∀ n : Nat, f^[n + 1] b = f b := by
  intro n
  induction n with
  | zero => simp
  | succ n ih =>
    rw [Function.iterate_succ_apply', ih]
    exact h

theorem find?_append_of_none {p : α → Bool} {l1 l2 : List α}
    (h : l1.find? p = none) : (l1 ++ l2).find? p = l2.find? p := by
  induction l1 with
  | nil => rfl
  | cons x xs ih =>
    by_cases hx : p x
    · rw [List.find?_cons_of_pos _ hx] at h
      cases h
    · rw [List.find?_cons_of_neg _ hx] at h
      rw [List.cons_append, List.find?_cons_of_neg _ hx]
      exact ih h

theorem find?_map_publicOf (l : List DDB.Video) (vid : Nat) :
    ((l.map DDB.publicOf).find? (fun w => w.id == vid))
      = (l.find? (fun w => w.id == vid)).map DDB.publicOf := by
  induction l with
  | nil => rfl
  | cons x xs ih =>
    by_cases hx : (x.id == vid) = true
    · have hx' : ((DDB.publicOf x).id == vid) = true := hx
      rw [List.map_cons,
        @List.find?_cons_of_pos _ (fun w => w.id == vid) (DDB.publicOf x)
          (List.map DDB.publicOf xs) hx',
        @List.find?_cons_of_pos _ (fun w => w.id == vid) x xs hx]
      rfl
    · have hx' : ¬(((DDB.publicOf x).id == vid) = true) := hx
      rw [List.map_cons,
        @List.find?_cons_of_neg _ (fun w => w.id == vid) (DDB.publicOf x)
          (List.map DDB.publicOf xs) hx',
        @List.find?_cons_of_neg _ (fun w => w.id == vid) x xs hx]
      exact ih

theorem find?_listVideos (s : DDB.State) (vid : Nat) :
    (DDB.listVideos s).find? (fun w => w.id == vid)
      = (s.videos.find? (fun w => w.id == vid)).map DDB.publicOf := by
  have h : DDB.listVideos s = s.videos.map DDB.publicOf := rfl
  rw [h, find?_map_publicOf]

theorem likeVideo_already {s : DDB.State} {vid : Nat} {uid : String} {v : DDB.Video}
    {ls : List String} (hf : s.videos.find? (fun w => w.id == vid) = some v)
    (hl : v.likes = some ls) (hc : ls.contains uid = true) :
    DDB.likeVideo s vid uid = .error .conditionalCheckFailed := by
  simp only [DDB.likeVideo, hf, hl]
  rw [if_pos hc]

theorem likeVideo_fresh {s : DDB.State} {vid : Nat} {uid : String} {v : DDB.Video}
    {ls : List String} (hf : s.videos.find? (fun w => w.id == vid) = some v)
    (hl : v.likes = some ls) (hc : ls.contains uid = false) :
    DDB.likeVideo s vid uid
      = .ok (v.likeCount + 1, ⟨updateFirst (fun w => w.id == vid) (fun _ => { v with likes := some (ls ++ [uid]), likeCount := v.likeCount + 1 }) s.videos⟩) := by
  have hc' : ¬(ls.contains uid = true) := by
    rw [hc]
    exact Bool.false_ne_true
  simp only [DDB.likeVideo, hf, hl]
  rw [if_neg hc']

theorem likeVideo_noneLikes {s : DDB.State} {vid : Nat} {uid : String} {v : DDB.Video}
    (hf : s.videos.find? (fun w => w.id == vid) = some v) (hl : v.likes = none) :
    DDB.likeVideo s vid uid
      = .ok (v.likeCount + 1, ⟨updateFirst (fun w => w.id == vid) (fun _ => { v with likes := some [uid], likeCount := v.likeCount + 1 }) s.videos⟩) := by
  simp only [DDB.likeVideo, hf, hl]

theorem likeVideo_upsert {s : DDB.State} {vid : Nat} {uid : String}
    (hf : s.videos.find? (fun w => w.id == vid) = none) :
    DDB.likeVideo s vid uid
      = .ok (1, ⟨s.videos ++ [{ id := vid, src := none, username := none, caption := none, music := none, likeCount := 1, likes := some [uid], comments := none, commentCount := none }]⟩) := by
  simp only [DDB.likeVideo, hf]

theorem likeVideo_ok_after {s : DDB.State} {vid : Nat} {uid : String} {c : Nat}
    {s' : DDB.State} (h : DDB.likeVideo s vid uid = .ok (c, s')) :
    ∃ v' ls', s'.videos.find? (fun w => w.id == vid) = some v'
      ∧ v'.likes = some ls' ∧ ls'.contains uid = true ∧ v'.likeCount = c := by
  cases hf : s.videos.find? (fun w => w.id == vid) with
  | some v =>
    have hpv := List.find?_some hf
    cases hl : v.likes with
    | some ls =>
      by_cases hc : ls.contains uid = true
      · rw [likeVideo_already hf hl hc] at h
        simp at h
      · rw [Bool.not_eq_true] at hc
        rw [likeVideo_fresh hf hl hc] at h
        injection h with h'
        injection h' with h1 h2
        subst h1
        subst h2
        have hfind2 := @find?_updateFirst _ _
          (fun _ => { v with likes := some (ls ++ [uid]), likeCount := v.likeCount + 1 })
          _ _ hf hpv
        exact ⟨{ v with likes := some (ls ++ [uid]), likeCount := v.likeCount + 1 }, ls ++ [uid], hfind2, rfl, contains_append_self ls uid, rfl⟩
    | none =>
      rw [likeVideo_noneLikes hf hl] at h
      injection h with h'
      injection h' with h1 h2
      subst h1
      subst h2
      have hfind2 := @find?_updateFirst _ _
        (fun _ => { v with likes := some [uid], likeCount := v.likeCount + 1 })
        _ _ hf hpv
      exact ⟨{ v with likes := some [uid], likeCount := v.likeCount + 1 }, [uid], hfind2, rfl, contains_append_self [] uid, rfl⟩
  | none =>
    rw [likeVideo_upsert hf] at h
    injection h with h'
    injection h' with h1 h2
    subst h1
    subst h2
    refine ⟨{ id := vid, src := none, username := none, caption := none, music := none, likeCount := 1, likes := some [uid], comments := none, commentCount := none }, [uid], ?_, rfl, contains_append_self [] uid, rfl⟩
    show List.find? (fun w : DDB.Video => w.id == vid) (s.videos ++ [{ id := vid, src := none, username := none, caption := none, music := none, likeCount := 1, likes := some [uid], comments := none, commentCount := none }]) = some { id := vid, src := none, username := none, caption := none, music := none, likeCount := 1, likes := some [uid], comments := none, commentCount := none }
    rw [find?_append_of_none hf]
    simp [List.find?]

theorem likeVideo_error {s : DDB.State} {vid : Nat} {uid : String} {e : DDB.Err}
    (h : DDB.likeVideo s vid uid = .error e) :
    e = .conditionalCheckFailed
    ∧ ∃ v ls, s.videos.find? (fun w => w.id == vid) = some v
        ∧ v.likes = some ls ∧ ls.contains uid = true := by
  cases hf : s.videos.find? (fun w => w.id == vid) with
  | some v =>
    cases hl : v.likes with
    | some ls =>
      by_cases hc : ls.contains uid = true
      · rw [likeVideo_already hf hl hc] at h
        injection h with h'
        exact ⟨h'.symm, ⟨v, ls, rfl, hl, hc⟩⟩
      · rw [Bool.not_eq_true] at hc
        rw [likeVideo_fresh hf hl hc] at h
        simp at h
    | none =>
      rw [likeVideo_noneLikes hf hl] at h
      simp at h
  | none =>
    rw [likeVideo_upsert hf] at h
    simp at h

theorem likeStep_idem (vid : Nat) (uid : String) (s : DDB.State) :
    DDB.likeStep vid uid (DDB.likeStep vid uid s) = DDB.likeStep vid uid s := by
  cases hlv : DDB.likeVideo s vid uid with
  | ok r =>
    obtain ⟨c, s'⟩ := r
    obtain ⟨v', ls', hf', hl', hc', _⟩ := likeVideo_ok_after hlv
    have hlv2 := likeVideo_already hf' hl' hc'
    simp [DDB.likeStep, hlv, hlv2]
  | error e =>
    simp [DDB.likeStep, hlv]

theorem likeRouteV1_idem (du : DDB.Sess) (vid : Nat) (s : DDB.State) :
    DDB.likeRouteV1 (some du) vid ((DDB.likeRouteV1 (some du) vid s).2)
      = DDB.likeRouteV1 (some du) vid s := by
  cases hlv : DDB.likeVideo s vid (toString du.id) with
  | ok r =>
    obtain ⟨c, s'⟩ := r
    obtain ⟨v', ls', hf', hl', hc', hcount⟩ := likeVideo_ok_after hlv
    have hlv2 := likeVideo_already hf' hl' hc'
    have hfl : (DDB.listVideos s').find? (fun w => w.id == vid)
        = some (DDB.publicOf v') := by
      rw [find?_listVideos, hf']
      rfl
    have h1 : DDB.likeRouteV1 (some du) vid s = (.ok vid c, s') := by
      simp [DDB.likeRouteV1, hlv]
    rw [h1]
    have h2 : DDB.likeRouteV1 (some du) vid s' = (.ok vid v'.likeCount, s') := by
      simp [DDB.likeRouteV1, hlv2, hfl, DDB.publicOf]
    rw [h2, hcount]
  | error e =>
    obtain ⟨he, _⟩ := likeVideo_error hlv
    subst he
    have h2 : (DDB.likeRouteV1 (some du) vid s).2 = s := by
      cases hfind : (DDB.listVideos s).find? (fun w => w.id == vid) with
      | some item => simp [DDB.likeRouteV1, hlv, hfind]
      | none => simp [DDB.likeRouteV1, hlv, hfind]
    rw [h2]

/-- C1 (amended).  In the variants that keep a like-witness set, a given
user increments a video likeCount at most once.  In the file store
(part_002 route and part_001 JSON fallback): an already-present key makes
the request a no-op answering the current likeCount, an absent key is
inserted with likeCount grown by exactly 1, and repeating the request any
number of times equals performing it once.  In the table store: both
routes leave the table exactly as the shared conditional update does,
that update is idempotent on the table, the part_001 route answers a
repeat like with the current unmodified likeCount (and a fresh like with
the incremented count and the inserted key), while the part_000 route
answers the very same repeat with 404 not_found although the table is
unchanged.  (tiktokbackend.js keeps no witness set; see the
counterexample.) -/
theorem like_idempotent_per_user_gated (u : FileV.Sess) (du : DDB.Sess) (vid : Nat)
    (db : FileV.DB) (s : DDB.State) :
    (FileV.likeHandler (some u) vid ((FileV.likeHandler (some u) vid db).2)
        = FileV.likeHandler (some u) vid db)
    ∧ (∀ n : Nat,
        (FileV.likeRouteStep (some u, vid))^[n + 1] db = FileV.likeRouteStep (some u, vid) db)
    ∧ (∀ v, db.videos.find? (fun w => w.id == vid) = some v →
        v.likesByUser.contains (toString u.id) = true →
        FileV.likeHandler (some u) vid db = (.ok vid v.likeCount, db))
    ∧ (∀ v, db.videos.find? (fun w => w.id == vid) = some v →
        v.likesByUser.contains (toString u.id) = false →
        (FileV.likeHandler (some u) vid db).1 = .ok vid (v.likeCount + 1)
        ∧ (FileV.likeHandler (some u) vid db).2.videos.find? (fun w => w.id == vid)
            = some { v with likesByUser := v.likesByUser ++ [toString u.id],
                            likeCount := v.likeCount + 1 })
    ∧ ((DDB.likeRouteV1 (some du) vid s).2 = DDB.likeStep vid (toString du.id) s
        ∧ (DDB.likeRouteV0 (some du) vid s).2 = DDB.likeStep vid (toString du.id) s)
    ∧ (∀ uid : String,
        DDB.likeStep vid uid (DDB.likeStep vid uid s) = DDB.likeStep vid uid s
        ∧ ∀ n : Nat, (DDB.likeStep vid uid)^[n + 1] s = DDB.likeStep vid uid s)
    ∧ (DDB.likeRouteV1 (some du) vid ((DDB.likeRouteV1 (some du) vid s).2)
        = DDB.likeRouteV1 (some du) vid s)
    ∧ (∀ v ls, s.videos.find? (fun w => w.id == vid) = some v →
        v.likes = some ls → ls.contains (toString du.id) = true →
        DDB.likeRouteV1 (some du) vid s = (.ok vid v.likeCount, s))
    ∧ (∀ v ls, s.videos.find? (fun w => w.id == vid) = some v →
        v.likes = some ls → ls.contains (toString du.id) = false →
        (DDB.likeRouteV1 (some du) vid s).1 = .ok vid (v.likeCount + 1)
        ∧ (DDB.likeRouteV1 (some du) vid s).2.videos.find? (fun w => w.id == vid)
            = some { v with likes := some (ls ++ [toString du.id]),
                            likeCount := v.likeCount + 1 })
    ∧ (∀ v ls, s.videos.find? (fun w => w.id == vid) = some v →
        v.likes = some ls → ls.contains (toString du.id) = true →
        DDB.likeRouteV0 (some du) vid s = (.error 404 "not_found", s)) := by
  have key : ∀ d : FileV.DB,
      FileV.likeHandler (some u) vid (FileV.likeHandler (some u) vid d).2
        = FileV.likeHandler (some u) vid d := by
    intro d
    cases hf : d.videos.find? (fun w => w.id == vid) with
    | none => simp [FileV.likeHandler, hf]
    | some v =>
      by_cases hm : toString u.id ∈ v.likesByUser
      · have hfix := @updateFirst_fix _ _ (fun _ => v) _ _ hf rfl
        simp [FileV.likeHandler, hf, hm, hfix]
      · have hpv := List.find?_some hf
        have hfind2 := @find?_updateFirst _ _
          (fun _ => { v with likesByUser := v.likesByUser ++ [toString u.id],
                             likeCount := v.likeCount + 1 }) _ _ hf hpv
        have hfix2 := @updateFirst_fix _ _
          (fun _ => { v with likesByUser := v.likesByUser ++ [toString u.id],
                             likeCount := v.likeCount + 1 }) _ _ hfind2 rfl
        simp [FileV.likeHandler, hf, hm, hfind2, hfix2]
  refine ⟨key db, iterate_fix (congrArg Prod.snd (key db)), ?_, ?_, ?_, ?_,
    likeRouteV1_idem du vid s, ?_, ?_, ?_⟩
  · intro v hf hc
    have hm : toString u.id ∈ v.likesByUser := mem_of_contains_true hc
    have hfix := @updateFirst_fix _ _ (fun _ => v) _ _ hf rfl
    simp [FileV.likeHandler, hf, hm, hfix]
  · intro v hf hc
    have hm : toString u.id ∉ v.likesByUser := not_mem_of_contains_false hc
    have hpv := List.find?_some hf
    have hfind2 := @find?_updateFirst _ _
      (fun _ => { v with likesByUser := v.likesByUser ++ [toString u.id],
                         likeCount := v.likeCount + 1 }) _ _ hf hpv
    constructor
    · simp [FileV.likeHandler, hf, hm]
    · simp only [FileV.likeHandler, hf]
      simp [hm]
      exact hfind2
  · constructor
    · cases hlv : DDB.likeVideo s vid (toString du.id) with
      | ok r =>
        obtain ⟨c, s'⟩ := r
        simp [DDB.likeRouteV1, DDB.likeStep, hlv]
      | error e =>
        cases e with
        | conditionalCheckFailed =>
          cases hfind : (DDB.listVideos s).find? (fun w => w.id == vid) with
          | some item => simp [DDB.likeRouteV1, DDB.likeStep, hlv, hfind]
          | none => simp [DDB.likeRouteV1, DDB.likeStep, hlv, hfind]
        | storageFailure => simp [DDB.likeRouteV1, DDB.likeStep, hlv]
    · cases hlv : DDB.likeVideo s vid (toString du.id) with
      | ok r =>
        obtain ⟨c, s'⟩ := r
        simp [DDB.likeRouteV0, DDB.likeStep, hlv]
      | error e => simp [DDB.likeRouteV0, DDB.likeStep, hlv]
  · intro uid
    exact ⟨likeStep_idem vid uid s, iterate_fix (likeStep_idem vid uid s)⟩
  · intro v ls hf hl hc
    have hlv := likeVideo_already hf hl hc
    have hfl : (DDB.listVideos s).find? (fun w => w.id == vid)
        = some (DDB.publicOf v) := by
      rw [find?_listVideos, hf]
      rfl
    simp [DDB.likeRouteV1, hlv, hfl, DDB.publicOf]
  · intro v ls hf hl hc
    have hlv := likeVideo_fresh hf hl hc
    have hpv := List.find?_some hf
    have hfind2 := @find?_updateFirst _ _
      (fun _ => { v with likes := some (ls ++ [toString du.id]), likeCount := v.likeCount + 1 })
      _ _ hf hpv
    have h1 : DDB.likeRouteV1 (some du) vid s
        = (.ok vid (v.likeCount + 1), ⟨updateFirst (fun w => w.id == vid) (fun _ => { v with likes := some (ls ++ [toString du.id]), likeCount := v.likeCount + 1 }) s.videos⟩) := by
      simp [DDB.likeRouteV1, hlv]
    constructor
    · rw [h1]
    · rw [h1]
      exact hfind2
  · intro v ls hf hl hc
    have hlv := likeVideo_already hf hl hc
    simp [DDB.likeRouteV0, hlv]

/-- C1 witness: a fresh like on seeded video 1 answers count 1 in the file
variant and in the part_001 table route, repeating changes nothing in
either store, and on the already-liked table state the part_000 route
answers 404 with the table unchanged. -/
theorem like_idempotent_per_user_gated_witness :
    (FileV.likeHandler (some ⟨7, "u7"⟩) 1 FileV.seedDB).1 = .ok 1 1
    ∧ FileV.likeHandler (some ⟨7, "u7"⟩) 1 ((FileV.likeHandler (some ⟨7, "u7"⟩) 1 FileV.seedDB).2)
        = FileV.likeHandler (some ⟨7, "u7"⟩) 1 FileV.seedDB
    ∧ (DDB.likeRouteV1 (some ⟨9, "bob"⟩) 1 DDB.seedState).1 = .ok 1 1
    ∧ DDB.likeStep 1 "9" (DDB.likeStep 1 "9" DDB.seedState) = DDB.likeStep 1 "9" DDB.seedState
    ∧ DDB.likeRouteV0 (some ⟨100, "carol"⟩) 1 DDB.alreadyLikedState
        = (.error 404 "not_found", DDB.alreadyLikedState) := by
  have h := like_idempotent_per_user_gated ⟨7, "u7"⟩ ⟨9, "bob"⟩ 1 FileV.seedDB DDB.seedState
  have h0 := like_idempotent_per_user_gated ⟨7, "u7"⟩ ⟨100, "carol"⟩ 1 FileV.seedDB
    DDB.alreadyLikedState
  refine ⟨(h.2.2.2.1 _ rfl rfl).1, h.1, (h.2.2.2.2.2.2.2.2.1 _ _ rfl rfl rfl).1,
    (h.2.2.2.2.2.1 "9").1, h0.2.2.2.2.2.2.2.2.2 _ _ rfl rfl rfl⟩

/-- C1 counterexample: in tiktokbackend.js two like requests on seeded
video 1 raise likeCount to 2, not 1, so repeating the call is not a
no-op there. -/
theorem like_not_idempotent_minimal :
    Tiktok.countOf (Tiktok.likeHandler 1 (Tiktok.likeHandler 1 Tiktok.seedDB).2).2 1 = some 2
    ∧ Tiktok.countOf (Tiktok.likeHandler 1 Tiktok.seedDB).2 1 = some 1
    ∧ (some 2 : Option Nat) ≠ some 1 :=
  ⟨rfl, rfl, by decide⟩

/-! ## C2: handling of the conditional-update rejection
    and C6: the session gate on the like routes -/

/-- C2: on a table state where user 100 already liked video 1, the
part_001 route answers the conditional rejection as already liked (200
with the unmodified count and unchanged state), while the part_000
route's catch-all maps the very same rejection to a 404 not_found error
response. -/
theorem conditional_rejection_handling :
    ((DDB.alreadyLikedState.videos.find? (fun v => v.id == 1)).map
        (fun v => (v.likes, v.likeCount))) = some (some ["100"], 1)
    ∧ DDB.likeRouteV1 (some ⟨100, "alice"⟩) 1 DDB.alreadyLikedState
        = (.ok 1 1, DDB.alreadyLikedState)
    ∧ DDB.likeRouteV0 (some ⟨100, "alice"⟩) 1 DDB.alreadyLikedState
        = (.error 404 "not_found", DDB.alreadyLikedState) :=
  ⟨rfl, rfl, rfl⟩

/-- C6 (amended): in the session-gated variants a like request without an
authenticated session is answered 401 unauthorized before any mutation,
leaving the store untouched.  (tiktokbackend.js has no gate; see the
counterexample.) -/
theorem unauthenticated_like_rejected (vid : Nat) (db : FileV.DB) (s : DDB.State) :
    FileV.likeHandler none vid db = (.error 401 "unauthorized", db)
    ∧ DDB.likeRouteV1 none vid s = (.error 401 "unauthorized", s)
    ∧ DDB.likeRouteV0 none vid s = (.error 401 "unauthorized", s) :=
  ⟨rfl, rfl, rfl⟩

/-- C6 counterexample: tiktokbackend.js mounts no session middleware, so
every like request is anonymous; such a request on seeded video 1 is
answered 200 and raises likeCount from 0 to 1. -/
theorem anonymous_like_mutates_minimal :
    Tiktok.countOf Tiktok.seedDB 1 = some 0
    ∧ (Tiktok.likeHandler 1 Tiktok.seedDB).1 = .ok 1 1
    ∧ Tiktok.countOf (Tiktok.likeHandler 1 Tiktok.seedDB).2 1 = some 1
    ∧ (some 1 : Option Nat) ≠ some 0 :=
  ⟨rfl, rfl, rfl, by decide⟩

/-! ## C3: the denormalized comment counter -/

theorem ball_updateFirst {P : α → Prop} {p : α → Bool} {f : α → α} {l : List α}
    (h : ∀ x ∈ l, P x) (hf : ∀ x ∈ l, P (f x)) : ∀ y ∈ updateFirst p f l, P y := by
  intro y hy
  rcases mem_updateFirst hy with h' | ⟨x, hx, _, rfl⟩
  · exact h y h'
  · exact hf x hx

theorem ball_append_single {P : α → Prop} {l : List α} {a : α}
    (h : ∀ x ∈ l, P x) (ha : P a) : ∀ y ∈ l ++ [a], P y := by
  intro y hy
  rcases List.mem_append.mp hy with h' | h'
  · exact h y h'
  · rw [List.mem_singleton.mp h']
    exact ha

theorem commentInv_seed : DDB.CommentInv DDB.seedState := by decide

theorem commentInv_like (vid : Nat) (uid : String) {s : DDB.State}
    (h : DDB.CommentInv s) : DDB.CommentInv (DDB.likeStep vid uid s) := by
  cases hf : s.videos.find? (fun v => v.id == vid) with
  | none =>
    simp only [DDB.likeStep, DDB.likeVideo, hf]
    exact ball_append_single h (by simp)
  | some v0 =>
    have hmem := List.mem_of_find?_eq_some hf
    cases hl : v0.likes with
    | some ls =>
      by_cases hc : ls.contains uid = true
      · simp only [DDB.likeStep, DDB.likeVideo, hf, hl, hc, if_true]
        exact h
      · rw [Bool.not_eq_true] at hc
        simp only [DDB.likeStep, DDB.likeVideo, hf, hl, hc, Bool.false_eq_true, if_false]
        exact ball_updateFirst h (fun x _ => h v0 hmem)
    | none =>
      simp only [DDB.likeStep, DDB.likeVideo, hf, hl]
      exact ball_updateFirst h (fun x _ => h v0 hmem)

theorem commentInv_comment (vid : Nat) (username text : String) (now : Nat)
    (nowISO : String) {s : DDB.State} (h : DDB.CommentInv s) :
    DDB.CommentInv (DDB.commentStep vid username text now nowISO s) := by
  cases hf : s.videos.find? (fun v => v.id == vid) with
  | none =>
    simp only [DDB.commentStep, DDB.addComment, hf]
    exact ball_append_single h (by simp)
  | some v0 =>
    have hmem := List.mem_of_find?_eq_some hf
    simp only [DDB.commentStep, DDB.addComment, hf]
    refine ball_updateFirst h (fun x _ => ?_)
    have hv0 := h v0 hmem
    simp [hv0]

/-- C3.  At every table state reachable from the seed, each video's
stored commentCount attribute equals the length of its comments list;
the feed projection exposes exactly that length as commentCount; and an
addComment call on a present video appends exactly one comment, keeping
the counter equal to the new length and creating no video. -/
theorem comment_counter_matches_list (s : DDB.State) (hs : DDB.Reach s) :
    (∀ v ∈ s.videos, v.commentCount.getD 0 = (v.comments.getD []).length)
    ∧ (∀ p ∈ DDB.listVideos s, ∃ v ∈ s.videos,
        p = DDB.publicOf v ∧ p.commentCount = (v.comments.getD []).length)
    ∧ (∀ vid username text now nowISO v,
        s.videos.find? (fun w => w.id == vid) = some v →
        ∃ v', (DDB.addComment s vid username text now nowISO).2.videos.find?
                (fun w => w.id == vid) = some v'
          ∧ v'.comments.getD [] = v.comments.getD [] ++ [⟨now, username, text, nowISO⟩]
          ∧ v'.commentCount.getD 0 = (v'.comments.getD []).length
          ∧ (DDB.addComment s vid username text now nowISO).2.videos.length
              = s.videos.length) := by
  have hinv : DDB.CommentInv s := by
    induction hs with
    | seed => exact commentInv_seed
    | like vid uid s' hr ih => exact commentInv_like vid uid ih
    | comment vid username text now nowISO s' hr ih =>
      exact commentInv_comment vid username text now nowISO ih
  refine ⟨hinv, ?_, ?_⟩
  · intro p hp
    rcases List.mem_map.mp hp with ⟨v, hv, rfl⟩
    exact ⟨v, hv, rfl, rfl⟩
  · intro vid username text now nowISO v hf
    have hpv := List.find?_some hf
    have hfind2 := @find?_updateFirst _ _
      (fun _ => { v with comments := some (v.comments.getD [] ++ [⟨now, username, text, nowISO⟩]),
                         commentCount := some (v.commentCount.getD 0 + 1) }) _ _ hf hpv
    refine ⟨({ v with comments := some (v.comments.getD [] ++ [⟨now, username, text, nowISO⟩]), commentCount := some (v.commentCount.getD 0 + 1) }), ?_, ?_, ?_, ?_⟩
    · simp only [DDB.addComment, hf]
      exact hfind2
    · simp
    · have hv := hinv v (List.mem_of_find?_eq_some hf)
      simp [hv]
    · simp [DDB.addComment, hf, length_updateFirst]

/-- C3 witness: the invariant instantiated at the seed state's first
video. -/
theorem comment_counter_matches_list_witness :
    (DDB.seedState.videos.get ⟨0, by decide⟩).commentCount.getD 0
      = ((DDB.seedState.videos.get ⟨0, by decide⟩).comments.getD []).length :=
  (comment_counter_matches_list DDB.seedState DDB.Reach.seed).1 _ (List.get_mem _ _ _)

/-! ## C4: username uniqueness at signup -/

theorem signup_preserves_pairwise (hashF : String → String) (now : Nat)
    (username password : String) (us : FileV.Users)
    (h : us.users.Pairwise (fun a b => a.username ≠ b.username)) :
    ((FileV.signup hashF now username password us).2).users.Pairwise
      (fun a b => a.username ≠ b.username) := by
  by_cases c1 : username = "" ∨ password = ""
  · simp only [FileV.signup, c1, if_true]
    exact h
  · by_cases c2 : username.length < 3
    · simp only [FileV.signup, c1, if_false, c2, if_true]
      exact h
    · by_cases c3 : password.length < 6
      · simp only [FileV.signup, c1, if_false, c2, c3, if_true]
        exact h
      · by_cases c4 : us.users.any (fun u => u.username.toLower == username.toLower) = true
        · simp only [FileV.signup, c1, if_false, c2, c3, c4, if_true]
          exact h
        · rw [Bool.not_eq_true] at c4
          simp only [FileV.signup, c1, if_false, c2, c3, c4, Bool.false_eq_true]
          rw [List.pairwise_append]
          refine ⟨h, List.pairwise_singleton _ _, ?_⟩
          intro a ha b hb
          rw [List.mem_singleton.mp hb]
          intro heq
          have : us.users.any (fun u => u.username.toLower == username.toLower) = true :=
            List.any_eq_true.mpr ⟨a, ha, by
              rw [show a.username = username from heq]
              exact beq_self_eq_true _⟩
          rw [c4] at this
          cases this

/-- C4.  A signup whose credentials pass validation but whose username is
already stored is answered 409 username_taken and stores nothing; and at
every users-file state reachable from the empty file by signups, no two
stored accounts share a username. -/
theorem signup_unique_username (hashF : String → String) (now : Nat)
    (username password : String) (us : FileV.Users) (hr : FileV.UsersReach us)
    (h3 : 3 ≤ username.length) (h6 : 6 ≤ password.length)
    (hex : ∃ u ∈ us.users, u.username = username) :
    FileV.signup hashF now username password us = (.error 409 "username_taken", us)
    ∧ us.users.Pairwise (fun a b => a.username ≠ b.username) := by
  constructor
  · have hu : ¬(username = "" ∨ password = "") := by
      rintro (h | h)
      · subst h
        exact absurd h3 (by decide)
      · subst h
        exact absurd h6 (by decide)
    have hc2 : ¬username.length < 3 := by omega
    have hc3 : ¬password.length < 6 := by omega
    obtain ⟨u0, hu0, he⟩ := hex
    have hany : us.users.any (fun u => u.username.toLower == username.toLower) = true :=
      List.any_eq_true.mpr ⟨u0, hu0, by
        rw [he]
        exact beq_self_eq_true _⟩
    simp only [FileV.signup, hu, if_false, hc2, hc3, hany, if_true]
  · clear hex
    induction hr with
    | init => simp
    | step hashF0 now0 username0 password0 us0 hr0 ih =>
      exact signup_preserves_pairwise hashF0 now0 username0 password0 us0 ih

/-- C4 witness: after signing up alice, a second signup for alice with a
valid different password is answered 409 username_taken and leaves the
users file unchanged. -/
theorem signup_unique_username_witness :
    FileV.signup (fun s => s) 1 "alice" "other12"
        ((FileV.signup (fun s => s) 0 "alice" "secret1" ⟨[]⟩).2)
      = (.error 409 "username_taken", (FileV.signup (fun s => s) 0 "alice" "secret1" ⟨[]⟩).2) :=
  (signup_unique_username (fun s => s) 1 "alice" "other12" _
      (FileV.UsersReach.step (fun s => s) 0 "alice" "secret1" ⟨[]⟩ FileV.UsersReach.init)
      (by decide) (by decide)
      ⟨⟨0, "alice", "secret1"⟩, by decide, rfl⟩).1

/-! ## C5: changePassword guards -/

/-- C5.  changePassword returns false and leaves the stored users
untouched when the user is absent or the old password fails verification;
on a successful verification it returns true and replaces exactly the
stored passwordHash, keeping every other user and every other field of
the matched user unchanged. -/
theorem change_password_guards (verify : String → String → Bool)
    (hashF : String → String) (users : List DDB.User)
    (username oldPw newPw : String) :
    (users.find? (fun w => w.username == username) = none →
      DDB.changePassword verify hashF users username oldPw newPw = (false, users))
    ∧ (∀ u, users.find? (fun w => w.username == username) = some u →
        verify oldPw u.passwordHash = false →
        DDB.changePassword verify hashF users username oldPw newPw = (false, users))
    ∧ (∀ u, users.find? (fun w => w.username == username) = some u →
        verify oldPw u.passwordHash = true →
        (DDB.changePassword verify hashF users username oldPw newPw).1 = true
        ∧ (DDB.changePassword verify hashF users username oldPw newPw).2.find?
              (fun w => w.username == username)
            = some { u with passwordHash := hashF newPw }
        ∧ (∀ w ∈ users, (w.username == username) = false →
            w ∈ (DDB.changePassword verify hashF users username oldPw newPw).2)
        ∧ (DDB.changePassword verify hashF users username oldPw newPw).2.length
            = users.length) := by
  refine ⟨?_, ?_, ?_⟩
  · intro hf
    simp [DDB.changePassword, hf]
  · intro u hf hv
    simp [DDB.changePassword, hf, hv]
  · intro u hf hv
    have hpu := List.find?_some hf
    have hfind2 := @find?_updateFirst _ _
      (fun w => { w with passwordHash := hashF newPw }) _ _ hf hpu
    refine ⟨?_, ?_, ?_, ?_⟩
    · simp [DDB.changePassword, hf, hv]
    · simp only [DDB.changePassword, hf, hv, if_true]
      exact hfind2
    · intro w hw hne
      simp only [DDB.changePassword, hf, hv, if_true]
      exact mem_of_ne_updateFirst hw hne
    · simp [DDB.changePassword, hf, hv, length_updateFirst]

/-- C5 witness: with one stored user alice, a changePassword carrying a
wrong old password returns false and leaves the user list unchanged. -/
theorem change_password_guards_witness :
    DDB.changePassword (fun a b => a == b) (fun s => s)
        [⟨"alice", "pw1", 1, none⟩] "alice" "wrong" "newpass1"
      = (false, [⟨"alice", "pw1", 1, none⟩]) :=
  (change_password_guards (fun a b => a == b) (fun s => s)
      [⟨"alice", "pw1", 1, none⟩] "alice" "wrong" "newpass1").2.1
    ⟨"alice", "pw1", 1, none⟩ rfl rfl

/-! ## C7: comment length validation -/

/-- C7.  A comment request whose trimmed text has length 0 is answered
400 empty_comment and one whose trimmed text exceeds 300 is answered 400
too_long, in part_002 (behind the session gate) and in tiktokbackend.js
alike, with the store state returned unchanged: the rejection happens
before any mutation. -/
theorem comment_length_validation (now : Nat) (nowISO : String) (u : FileV.Sess)
    (vid : Nat) (raw : String) (db : FileV.DB) (tdb : Tiktok.DB) :
    ((jsTrim raw).length = 0 →
      FileV.commentHandler now nowISO (some u) vid raw db = (.error 400 "empty_comment", db)
      ∧ Tiktok.commentHandler now nowISO vid raw tdb = (.error 400 "empty_comment", tdb))
    ∧ (300 < (jsTrim raw).length →
      FileV.commentHandler now nowISO (some u) vid raw db = (.error 400 "too_long", db)
      ∧ Tiktok.commentHandler now nowISO vid raw tdb = (.error 400 "too_long", tdb)) := by
  constructor
  · intro h0
    have he : jsTrim raw = "" := eq_empty_of_length_zero h0
    constructor
    · simp [FileV.commentHandler, he]
    · simp [Tiktok.commentHandler, he]
  · intro hlong
    have hne : ¬(jsTrim raw = "") := by
      intro h
      rw [h] at hlong
      exact absurd hlong (by decide)
    constructor
    · simp [FileV.commentHandler, hne, hlong]
    · simp [Tiktok.commentHandler, hne, hlong]

set_option maxRecDepth 4096 in
/-- C7 witness: a whitespace-only body is answered empty_comment in
part_002 and a 301-character body is answered too_long in
tiktokbackend.js, both leaving the seed store unchanged. -/
theorem comment_length_validation_witness :
    FileV.commentHandler 1 "t" (some ⟨1, "alice"⟩) 1 " " FileV.seedDB
      = (.error 400 "empty_comment", FileV.seedDB)
    ∧ Tiktok.commentHandler 1 "t" 1 (String.mk (List.replicate 301 'a')) Tiktok.seedDB
      = (.error 400 "too_long", Tiktok.seedDB) :=
  ⟨((comment_length_validation 1 "t" ⟨1, "alice"⟩ 1 " " FileV.seedDB Tiktok.seedDB).1
      (by decide)).1,
   ((comment_length_validation 1 "t" ⟨1, "alice"⟩ 1 (String.mk (List.replicate 301 'a'))
      FileV.seedDB Tiktok.seedDB).2 (by decide)).2⟩

/-! ## C8: the public feed projection -/

/-- C8.  Both feed listings map each stored video through a projection
whose commentCount equals the length of the video's comments list and
whose output does not depend on (and has no field for) the like-witness
set: changing likes or likesByUser never changes the projection. -/
theorem feed_projection_public (s : DDB.State) (db : FileV.DB) (v : DDB.Video)
    (w : FileV.Video) (ls : Option (List String)) (lbu : List String) :
    DDB.listVideos s = s.videos.map DDB.publicOf
    ∧ (DDB.publicOf v).commentCount = (v.comments.getD []).length
    ∧ DDB.publicOf { v with likes := ls } = DDB.publicOf v
    ∧ FileV.feed db = db.videos.map FileV.publicOf
    ∧ (FileV.publicOf w).commentCount = w.comments.length
    ∧ FileV.publicOf { w with likesByUser := lbu } = FileV.publicOf w :=
  ⟨rfl, rfl, rfl, rfl, rfl, rfl⟩

/-! ## C9: accepted comments carry the trimmed text -/

/-- C9.  An accepted comment request (session present, trimmed length in
bounds, video found) returns and stores a comment whose text is exactly
the trimmed request text, in part_002 and in the part_000 route alike. -/
theorem accepted_comment_stores_trimmed_text (now : Nat) (nowISO : String)
    (u : FileV.Sess) (du : DDB.Sess) (vid : Nat) (raw : String)
    (db : FileV.DB) (s : DDB.State) :
    (∀ v, db.videos.find? (fun w => w.id == vid) = some v →
      jsTrim raw ≠ "" → (jsTrim raw).length ≤ 300 →
      (FileV.commentHandler now nowISO (some u) vid raw db).1
          = .created ⟨now, jsTrim raw, u.username, nowISO⟩
      ∧ (FileV.commentHandler now nowISO (some u) vid raw db).2.videos.find?
            (fun w => w.id == vid)
          = some { v with comments := v.comments ++ [⟨now, jsTrim raw, u.username, nowISO⟩] })
    ∧ (∀ v, s.videos.find? (fun w => w.id == vid) = some v →
      1 ≤ (jsTrim raw).length → (jsTrim raw).length ≤ 300 →
      (DDB.commentRouteV0 now nowISO (some du) vid raw s).1
          = .created ⟨now, du.username, jsTrim raw, nowISO⟩
      ∧ (DDB.commentRouteV0 now nowISO (some du) vid raw s).2.videos.find?
            (fun w => w.id == vid)
          = some { v with comments := some (v.comments.getD [] ++ [⟨now, du.username, jsTrim raw, nowISO⟩]), commentCount := some (v.commentCount.getD 0 + 1) }) := by
  constructor
  · intro v hf hne hle
    have hgt : ¬((jsTrim raw).length > 300) := by omega
    have hpv := List.find?_some hf
    have hfind2 := @find?_updateFirst _ _
      (fun _ => { v with comments := v.comments ++ [⟨now, jsTrim raw, u.username, nowISO⟩] })
      _ _ hf hpv
    constructor
    · simp [FileV.commentHandler, hne, hgt, hf]
    · simp only [FileV.commentHandler, hne, hgt, hf]
      simp
      exact hfind2
  · intro v hf h1 hle
    have hlt : ¬((jsTrim raw).length < 1) := by omega
    have hgt : ¬((jsTrim raw).length > 300) := by omega
    have hpv := List.find?_some hf
    have hfind2 := @find?_updateFirst _ _
      (fun _ => { v with comments := some (v.comments.getD [] ++ [⟨now, du.username, jsTrim raw, nowISO⟩]), commentCount := some (v.commentCount.getD 0 + 1) })
      _ _ hf hpv
    constructor
    · simp [DDB.commentRouteV0, DDB.addComment, hlt, hgt, hf]
    · simp only [DDB.commentRouteV0, DDB.addComment, hlt, hgt, hf]
      simp
      exact hfind2

/-- C9 witness: posting the body text consisting of hi between spaces on
seeded video 1 creates a comment whose text is the trimmed form. -/
theorem accepted_comment_stores_trimmed_text_witness :
    (FileV.commentHandler 5 "t" (some ⟨1, "alice"⟩) 1 " hi " FileV.seedDB).1
      = .created ⟨5, "hi", "alice", "t"⟩ := by
  have h := (accepted_comment_stores_trimmed_text 5 "t" ⟨1, "alice"⟩ ⟨1, "alice"⟩ 1 " hi "
      FileV.seedDB DDB.seedState).1 _ rfl (by decide) (by decide)
  have e : jsTrim " hi " = "hi" := by decide
  rw [e] at h
  exact h.1

/-! ## C10: likeCount equals the size of the witness map -/

theorem likeInv_seed : FileV.LikeInv FileV.seedDB := by decide

theorem likeInv_handler (op : Option FileV.Sess × Nat) {db : FileV.DB}
    (h : FileV.LikeInv db) : FileV.LikeInv (FileV.likeRouteStep op db) := by
  obtain ⟨sess, vid⟩ := op
  cases sess with
  | none => exact h
  | some u =>
    cases hf : db.videos.find? (fun v => v.id == vid) with
    | none =>
      have hstep : FileV.likeRouteStep (some u, vid) db = db := by
        simp [FileV.likeRouteStep, FileV.likeHandler, hf]
      rw [hstep]
      exact h
    | some v =>
      by_cases hm : toString u.id ∈ v.likesByUser
      · have hfix := @updateFirst_fix _ _ (fun _ => v) _ _ hf rfl
        have hstep : FileV.likeRouteStep (some u, vid) db = db := by
          simp [FileV.likeRouteStep, FileV.likeHandler, hf, hm, hfix]
        rw [hstep]
        exact h
      · have hstep : FileV.likeRouteStep (some u, vid) db
            = ⟨updateFirst (fun w => w.id == vid)
                (fun _ => { v with likesByUser := v.likesByUser ++ [toString u.id],
                                   likeCount := v.likeCount + 1 }) db.videos⟩ := by
          simp [FileV.likeRouteStep, FileV.likeHandler, hf, hm]
        rw [hstep]
        intro y hy
        have hv := h v (List.mem_of_find?_eq_some hf)
        rcases mem_updateFirst hy with h' | ⟨x, hx, _, rfl⟩
        · exact h y h'
        · constructor
          · simp [hv.1]
          · exact nodup_append_single hm hv.2

theorem likeInv_store (op : String × Nat) {db : FileV.DB}
    (h : FileV.LikeInv db) : FileV.LikeInv (FileV.likeStoreStep op db) := by
  obtain ⟨uid, vid⟩ := op
  cases hf : db.videos.find? (fun v => v.id == vid) with
  | none =>
    have hstep : FileV.likeStoreStep (uid, vid) db = db := by
      simp [FileV.likeStoreStep, FileV.likeVideoStore, hf]
    rw [hstep]
    exact h
  | some v =>
    by_cases hm : uid ∈ v.likesByUser
    · have hfix := @updateFirst_fix _ _ (fun _ => v) _ _ hf rfl
      have hstep : FileV.likeStoreStep (uid, vid) db = db := by
        simp [FileV.likeStoreStep, FileV.likeVideoStore, hf, hm, hfix]
      rw [hstep]
      exact h
    · have hstep : FileV.likeStoreStep (uid, vid) db
          = ⟨updateFirst (fun w => w.id == vid)
              (fun _ => { v with likesByUser := v.likesByUser ++ [uid],
                                 likeCount := v.likeCount + 1 }) db.videos⟩ := by
        simp [FileV.likeStoreStep, FileV.likeVideoStore, hf, hm]
      rw [hstep]
      intro y hy
      have hv := h v (List.mem_of_find?_eq_some hf)
      rcases mem_updateFirst hy with h' | ⟨x, hx, _, rfl⟩
      · exact h y h'
      · constructor
        · simp [hv.1]
        · exact nodup_append_single hm hv.2

/-- C10.  Starting from the seeded file state (likeCount 0 and empty
likesByUser everywhere), after any sequence of like operations, through
the part_002 route or the part_001 fallback store alike, every video's
likeCount equals the number of entries of its likesByUser witness map
(whose keys stay pairwise distinct). -/
theorem like_count_matches_witness_size (ops : List (Option FileV.Sess × Nat))
    (ops2 : List (String × Nat)) :
    (∀ v ∈ (FileV.runLikes ops).videos,
        v.likeCount = v.likesByUser.length ∧ v.likesByUser.Nodup)
    ∧ (∀ v ∈ (FileV.runStoreLikes ops2).videos,
        v.likeCount = v.likesByUser.length ∧ v.likesByUser.Nodup) :=
  ⟨foldl_inv (fun _ a hb => likeInv_handler a hb) ops FileV.seedDB likeInv_seed,
   foldl_inv (fun _ a hb => likeInv_store a hb) ops2 FileV.seedDB likeInv_seed⟩

/-- C10 witness: after one like by user 7 on video 1, the first stored
video satisfies the count-equals-size invariant. -/
theorem like_count_matches_witness_size_witness :
    ((FileV.runLikes [(some ⟨7, "u7"⟩, 1)]).videos.get ⟨0, by decide⟩).likeCount
      = ((FileV.runLikes [(some ⟨7, "u7"⟩, 1)]).videos.get ⟨0, by decide⟩).likesByUser.length :=
  ((like_count_matches_witness_size [(some ⟨7, "u7"⟩, 1)] []).1 _ (List.get_mem _ _ _)).1

end Spec2Proof
